import Mathlib

/-!
LiftLog persistence engine: a shallow embedding.

This file embeds the local persistence layer of the LiftLog workout tracker
(`lib/database` module) into Lean: the three tables (workouts, exercises,
sets) become lists of row structures, SQLite's AUTOINCREMENT row ids become
explicit counters, the connection-global `last_insert_rowid` becomes a
`lastId` field, and each exported query/command function becomes a pure
function on the database state.  SQLite `REAL` is modelled by `Rat` and
`INTEGER` by `Int`/`Nat`; `datetime('now')` column defaults are stamped from
an ambient `now` field that the operations never modify.
-/

namespace LiftLog

/-- `load_type` column: enum `weighted | bodyweight`. -/
inductive LoadType where
  | weighted
  | bodyweight
deriving DecidableEq, Repr, Inhabited

/-- One row of the `workouts` table. -/
structure WorkoutRow where
  id : Nat
  date : String
  notes : Option String
  created_at : String
deriving DecidableEq, Repr

/-- One row of the `exercises` table (after the additive `i18n_key` migration). -/
structure ExerciseRow where
  id : Nat
  name : String
  category : String
  created_at : String
  i18n_key : Option String
deriving DecidableEq, Repr

/-- One row of the `sets` table. -/
structure SetRow where
  id : Nat
  workout_id : Nat
  exercise_id : Nat
  weight : Rat
  reps : Int
  load_type : LoadType
  set_order : Int
  created_at : String
deriving DecidableEq, Repr, Inhabited

/-- The whole database state: three tables, the AUTOINCREMENT counters,
the connection's `sqlite3_last_insert_rowid` value (`lastId`, `0` until the
first successful insert of the connection), and an ambient clock used to
stamp `created_at` defaults. -/
structure DB where
  workouts : List WorkoutRow
  exercises : List ExerciseRow
  sets : List SetRow
  nextWorkoutId : Nat
  nextExerciseId : Nat
  nextSetId : Nat
  lastId : Nat
  now : String
deriving DecidableEq, Repr

/-- A freshly initialized database: empty tables, row ids starting at 1. -/
def emptyDB : DB :=
  { workouts := [], exercises := [], sets := []
    nextWorkoutId := 1, nextExerciseId := 1, nextSetId := 1
    lastId := 0, now := "" }

/-! ## Row insertion primitives (the SQL INSERT statements) -/

/-- `INSERT INTO workouts (date, notes) VALUES (?, ?)`. -/
def insertWorkoutRow (db : DB) (date : String) (notes : Option String) : DB × Nat :=
  let id := db.nextWorkoutId
  ({ db with workouts := db.workouts ++ [⟨id, date, notes, db.now⟩]
             nextWorkoutId := id + 1, lastId := id }, id)

/-- `INSERT INTO exercises (name, category[, i18n_key]) VALUES ...`;
a plain insert stores no `i18n_key`, i.e. `none`. -/
def insertExerciseRow (db : DB) (name category : String) (key : Option String) : DB × Nat :=
  let id := db.nextExerciseId
  ({ db with exercises := db.exercises ++ [⟨id, name, category, db.now, key⟩]
             nextExerciseId := id + 1, lastId := id }, id)

/-- `INSERT INTO sets (workout_id, exercise_id, weight, reps, load_type, set_order)`. -/
def insertSetRow (db : DB) (workoutId exerciseId : Nat) (weight : Rat) (reps : Int)
    (loadType : LoadType) (setOrder : Int) : DB × Nat :=
  let id := db.nextSetId
  ({ db with sets := db.sets ++ [⟨id, workoutId, exerciseId, weight, reps, loadType, setOrder, db.now⟩]
             nextSetId := id + 1, lastId := id }, id)

/-- `SELECT * FROM exercises WHERE name = ? AND category = ?` (first row). -/
def findExercise (l : List ExerciseRow) (name category : String) : Option ExerciseRow :=
  l.find? (fun e => e.name = name && e.category = category)

/-! ## Workout operations -/

/-- `createWorkout(date, notes?)`: inserts one row, returns the new id. -/
def createWorkout (db : DB) (date : String) (notes : Option String) : DB × Nat :=
  insertWorkoutRow db date notes

/-- `updateWorkout(id, date, notes?)`: `UPDATE workouts SET date = ?, notes = ? WHERE id = ?`. -/
def updateWorkout (db : DB) (id : Nat) (date : String) (notes : Option String) : DB :=
  { db with workouts := db.workouts.map (fun w =>
      if w.id = id then { w with date := date, notes := notes } else w) }

/-- `deleteWorkout(id)`: `DELETE FROM workouts WHERE id = ?`; with
`PRAGMA foreign_keys = ON` and `ON DELETE CASCADE`, all sets whose
`workout_id` references the deleted workout are removed as well. -/
def deleteWorkout (db : DB) (id : Nat) : DB :=
  { db with workouts := db.workouts.filter (fun w => w.id != id)
            sets := db.sets.filter (fun s => s.workout_id != id) }

/-! ## Exercise operations -/

/-- `createExercise(name, category)`: `INSERT OR IGNORE INTO exercises`, then
`if (result.lastInsertRowId === 0)` re-select the existing id, otherwise
return `result.lastInsertRowId`.  When the insert is ignored (duplicate
`(name, category)`), SQLite leaves `sqlite3_last_insert_rowid` untouched, so
the returned value is the connection's previous `lastId` when that is
nonzero, and the re-selected id only when it is zero. -/
def createExercise (db : DB) (name category : String) : DB × Nat :=
  match findExercise db.exercises name category with
  | some _ =>
      if db.lastId = 0 then
        (db, ((findExercise db.exercises name category).map (fun e => e.id)).getD 0)
      else
        (db, db.lastId)
  | none => insertExerciseRow db name category none

/-- `getOrCreateExercise(name, category)`: select first, insert when absent. -/
def getOrCreateExercise (db : DB) (name category : String) : DB × Nat :=
  match findExercise db.exercises name category with
  | some e => (db, e.id)
  | none => insertExerciseRow db name category none

/-- `updateExercise(id, name, category)`: full overwrite of name and
category; the affected-row count is not inspected. -/
def updateExercise (db : DB) (id : Nat) (name category : String) : DB :=
  { db with exercises := db.exercises.map (fun e =>
      if e.id = id then { e with name := name, category := category } else e) }

/-- `deleteExercise(id)`: delete with cascade to the sets referencing it. -/
def deleteExercise (db : DB) (id : Nat) : DB :=
  { db with exercises := db.exercises.filter (fun e => e.id != id)
            sets := db.sets.filter (fun s => s.exercise_id != id) }

/-! ## Set operations -/

/-- `createSet(workoutId, exerciseId, weight, reps, loadType, setOrder)`:
with foreign keys enabled the INSERT fails with a constraint violation
unless both referenced rows exist. -/
def createSet (db : DB) (workoutId exerciseId : Nat) (weight : Rat) (reps : Int)
    (loadType : LoadType) (setOrder : Int) : Except String (DB × Nat) :=
  if db.workouts.any (fun w => w.id = workoutId) &&
      db.exercises.any (fun e => e.id = exerciseId) then
    Except.ok (insertSetRow db workoutId exerciseId weight reps loadType setOrder)
  else
    Except.error "FOREIGN KEY constraint failed"

/-- `updateSet(id, weight, reps, loadType?)`: when `loadType` is supplied
(a non-empty enum string, hence truthy) `load_type` is updated together with
`weight` and `reps`; when omitted only `weight` and `reps` change. -/
def updateSet (db : DB) (id : Nat) (weight : Rat) (reps : Int)
    (loadType : Option LoadType) : DB :=
  match loadType with
  | some lt =>
      { db with sets := db.sets.map (fun s =>
          if s.id = id then { s with weight := weight, reps := reps, load_type := lt } else s) }
  | none =>
      { db with sets := db.sets.map (fun s =>
          if s.id = id then { s with weight := weight, reps := reps } else s) }

/-- `deleteSet(id)`. -/
def deleteSet (db : DB) (id : Nat) : DB :=
  { db with sets := db.sets.filter (fun s => s.id != id) }

/-- `clearAllData()`: `DELETE FROM sets; DELETE FROM exercises; DELETE FROM workouts;`. -/
def clearAllData (db : DB) : DB :=
  { db with sets := [], exercises := [], workouts := [] }

/-! ## Transactions

`expo-sqlite`'s `withTransactionAsync` runs the body inside `BEGIN ... COMMIT`
and rolls the whole transaction back when the body throws: on an error the
database state reverts to the state at `BEGIN`. -/

/-- `withTransactionAsync`: the body either completes, yielding the new state
and a result, or throws, in which case the state is rolled back to the state
the transaction started from and the error is re-raised to the caller. -/
def withTransactionRun {α : Type} (db : DB) (body : DB → Except String (DB × α)) :
    DB × Except String α :=
  match body db with
  | Except.ok p => (p.1, Except.ok p.2)
  | Except.error e => (db, Except.error e)

/-! ## Default data seeding -/

/-- Entry of the static default-exercise catalog handed to `seedDefaultExercises`. -/
structure DefaultExerciseDefinition where
  name : String
  category : String
  i18n_key : String
deriving DecidableEq, Repr

/-- The loop body of `seedDefaultExercises`: for each entry, insert (with its
`i18n_key`) only when the `(name, category)` pair does not already exist. -/
def seedLoop : List DefaultExerciseDefinition → DB → Nat → DB × Nat
  | [], db, created => (db, created)
  | d :: rest, db, created =>
    match findExercise db.exercises d.name d.category with
    | some _ => seedLoop rest db created
    | none =>
      let p := insertExerciseRow db d.name d.category (some d.i18n_key)
      seedLoop rest p.1 (created + 1)

/-- `seedDefaultExercises(exercises)`: runs the seeding loop in a transaction
(no statement of the loop can fail, so the transaction always commits) and
returns the count of rows actually inserted. -/
def seedDefaultExercises (db : DB) (defs : List DefaultExerciseDefinition) : DB × Nat :=
  seedLoop defs db 0

/-! ## The i18n_key migration -/

/-- JavaScript `a || b` on the two map lookups of the backfill: an `undefined`
or empty-string left operand falls through to the right operand. -/
def jsStrOr (a b : Option String) : Option String :=
  match a with
  | some s => if s = "" then b else some s
  | none => b

/-- JavaScript `String.prototype.trim()`: strip leading and trailing
whitespace (the ASCII whitespace characters suffice for the catalog names). -/
def jsTrim (s : String) : String :=
  let ws := fun c : Char => c = ' ' || c = '\t' || c = '\n' || c = '\r'
  ⟨((s.data.dropWhile ws).reverse.dropWhile ws).reverse⟩

/-- One row of the backfill: rows whose `i18n_key` is already non-null are
excluded by the `WHERE i18n_key IS NULL` selection; for a selected row the
name (trimmed, then verbatim) is looked up in the static default-name map and,
when a truthy key is found, `i18n_key` is set to it. -/
def backfillRow (nameToKey : String → Option String) (e : ExerciseRow) : ExerciseRow :=
  if e.i18n_key = none then
    match jsStrOr (nameToKey (jsTrim e.name)) (nameToKey e.name) with
    | some key => if key = "" then e else { e with i18n_key := some key }
    | none => e
  else e

/-- `migrateExerciseI18nKey()`: the `ALTER TABLE ... ADD COLUMN i18n_key`
statement is a no-op in this embedding (the column is always present on
`ExerciseRow`; the duplicate-column error is swallowed by the source), and the
backfill updates every selected row as in `backfillRow`.  The
name-to-key map is the value of the i18n module's
`getDefaultExerciseNameToKeyMap()`, passed here as a parameter. -/
def migrateExerciseI18nKey (nameToKey : String → Option String) (db : DB) : DB :=
  { db with exercises := db.exercises.map (backfillRow nameToKey) }

/-! ## Bulk import -/

/-- Workout entry of the `bulkImport` payload. -/
structure BulkWorkout where
  date : String
  notes : Option String
deriving DecidableEq, Repr

/-- Exercise entry of the `bulkImport` payload. -/
structure BulkExercise where
  name : String
  category : String
deriving DecidableEq, Repr

/-- Set entry of the `bulkImport` payload; `workoutIndex` indexes into the
payload's workouts array. -/
structure BulkSet where
  workoutIndex : Nat
  exerciseName : String
  exerciseCategory : String
  weight : Rat
  reps : Int
  loadType : LoadType
  setOrder : Int
deriving DecidableEq, Repr

/-- The `bulkImport` payload. -/
structure BulkData where
  workouts : List BulkWorkout
  exercises : List BulkExercise
  sets : List BulkSet
deriving DecidableEq, Repr

/-- The counts returned by `bulkImport`. -/
structure BulkResult where
  workoutsCreated : Nat
  exercisesCreated : Nat
  setsCreated : Nat
deriving DecidableEq, Repr

/-- Phase 1 of `bulkImport`: insert every workout of the payload, collecting
the new row ids in order (`workoutIdMap`). -/
def bulkInsertWorkouts : List BulkWorkout → DB → DB × List Nat
  | [], db => (db, [])
  | w :: ws, db =>
    let p := insertWorkoutRow db w.date w.notes
    let q := bulkInsertWorkouts ws p.1
    (q.1, p.2 :: q.2)

/-- Phase 2 of `bulkImport`: walk the payload's exercises building the
`"name|category" -> id` map; an entry already in the map is skipped, an
existing row contributes its id, and a new row is inserted (without
`i18n_key`) and counted. -/
def bulkInsertExercises :
    List BulkExercise → DB → List (String × Nat) → Nat → DB × List (String × Nat) × Nat
  | [], db, m, c => (db, m, c)
  | e :: rest, db, m, c =>
    let key := e.name ++ "|" ++ e.category
    match m.lookup key with
    | some _ => bulkInsertExercises rest db m c
    | none =>
      match findExercise db.exercises e.name e.category with
      | some ex => bulkInsertExercises rest db (m ++ [(key, ex.id)]) c
      | none =>
        let p := insertExerciseRow db e.name e.category none
        bulkInsertExercises rest p.1 (m ++ [(key, p.2)]) (c + 1)

/-- The JavaScript truthiness test applied to the two map lookups of phase 3:
`workoutIdMap[set.workoutIndex] && exerciseIdMap.get(key)` is truthy exactly
when both lookups are defined and nonzero. -/
def bulkSetHit (widMap : List Nat) (eidMap : List (String × Nat)) (s : BulkSet) : Bool :=
  ((widMap[s.workoutIndex]?).getD 0 != 0) &&
    ((eidMap.lookup (s.exerciseName ++ "|" ++ s.exerciseCategory)).getD 0 != 0)

/-- Phase 3 of `bulkImport`: for each payload set, resolve both ids; when
either lookup is falsy (an out-of-range `workoutIndex`, or an exercise key
missing from the map) the entry is silently skipped, otherwise the set row is
inserted and counted. -/
def bulkInsertSets : List BulkSet → List Nat → List (String × Nat) → DB → DB × Nat
  | [], _, _, db => (db, 0)
  | s :: rest, widMap, eidMap, db =>
    if bulkSetHit widMap eidMap s then
      let p := insertSetRow db ((widMap[s.workoutIndex]?).getD 0)
        ((eidMap.lookup (s.exerciseName ++ "|" ++ s.exerciseCategory)).getD 0)
        s.weight s.reps s.loadType s.setOrder
      let q := bulkInsertSets rest widMap eidMap p.1
      (q.1, q.2 + 1)
    else
      bulkInsertSets rest widMap eidMap db

/-- The three phases of `bulkImport` run in order (the body of the
transaction), returning the new state and the created-row counts. -/
def bulkImportRun (db : DB) (data : BulkData) : DB × BulkResult :=
  let p1 := bulkInsertWorkouts data.workouts db
  let p2 := bulkInsertExercises data.exercises p1.1 [] 0
  let p3 := bulkInsertSets data.sets p1.2 p2.2.1 p2.1
  (p3.1, ⟨p1.2.length, p2.2.2, p3.2⟩)

/-- The two id maps built by phases 1 and 2, as seen by phase 3. -/
def bulkMaps (db : DB) (data : BulkData) : List Nat × List (String × Nat) :=
  let p1 := bulkInsertWorkouts data.workouts db
  let p2 := bulkInsertExercises data.exercises p1.1 [] 0
  (p1.2, p2.2.1)

/-- `bulkImport(data)`: the whole import runs inside a single
`withTransactionAsync`; in this embedding no statement of the body can fail
(inserted sets always reference rows created or found by the earlier phases),
so the body never throws. -/
def bulkImport (db : DB) (data : BulkData) : DB × Except String BulkResult :=
  withTransactionRun db (fun d => Except.ok (bulkImportRun d data))

/-! ## Read queries -/

/-- Generic insertion of an element into a list sorted by `le`. -/
def insertSorted {α : Type} (le : α → α → Bool) (a : α) : List α → List α
  | [] => [a]
  | b :: rest => if le a b then a :: b :: rest else b :: insertSorted le a rest

/-- Insertion sort by `le` (stable, as SQLite's ORDER BY over the scan order). -/
def sortByKey {α : Type} (le : α → α → Bool) : List α → List α
  | [] => []
  | a :: rest => insertSorted le a (sortByKey le rest)

/-- Strict lexicographic comparison of two strings by code point, matching
SQLite's BINARY collation (byte order of UTF-8 agrees with code-point order). -/
def strListLt : List Char → List Char → Bool
  | [], [] => false
  | [], _ :: _ => true
  | _ :: _, [] => false
  | a :: as, b :: bs =>
    if a.toNat < b.toNat then true
    else if b.toNat < a.toNat then false
    else strListLt as bs

/-- `a < b` on TEXT column values. -/
def strLt (a b : String) : Bool := strListLt a.data b.data

/-- `a <= b` on TEXT column values. -/
def strLe (a b : String) : Bool := !(strLt b a)

/-- `ORDER BY category, name` on exercises. -/
def exerciseLE (a b : ExerciseRow) : Bool :=
  strLt a.category b.category || (a.category = b.category && strLe a.name b.name)

/-- `getAllExercises()`: `SELECT * FROM exercises ORDER BY category, name`. -/
def getAllExercises (db : DB) : List ExerciseRow :=
  sortByKey exerciseLE db.exercises

/-- The joined row shape returned by the detail queries. -/
structure SetWithDetails where
  id : Nat
  workout_id : Nat
  exercise_id : Nat
  weight : Rat
  reps : Int
  load_type : LoadType
  set_order : Int
  created_at : String
  exercise_name : String
  exercise_category : String
  exercise_i18n_key : Option String
  workout_date : String
deriving DecidableEq, Repr

/-- The inner join `sets JOIN exercises ON s.exercise_id = e.id JOIN workouts
ON s.workout_id = w.id`, selecting `s.*, e.name, e.category, e.i18n_key,
w.date`. -/
def joinRows (db : DB) : List SetWithDetails :=
  db.sets.flatMap (fun s =>
    (db.exercises.filter (fun e => e.id = s.exercise_id)).flatMap (fun e =>
      (db.workouts.filter (fun w => w.id = s.workout_id)).map (fun w =>
        ⟨s.id, s.workout_id, s.exercise_id, s.weight, s.reps, s.load_type,
         s.set_order, s.created_at, e.name, e.category, e.i18n_key, w.date⟩)))

/-- `ORDER BY w.date DESC, s.set_order`. -/
def detailLE (a b : SetWithDetails) : Bool :=
  strLt b.workout_date a.workout_date ||
    (a.workout_date = b.workout_date && a.set_order ≤ b.set_order)

/-- `getAllSetsWithDetails(limit?)`: the join ordered by workout date
descending then set order; the `LIMIT ${limit}` clause is interpolated only
when `limit` is truthy (defined and nonzero), and SQLite treats a negative
LIMIT as unlimited. -/
def getAllSetsWithDetails (db : DB) (limit : Option Int) : List SetWithDetails :=
  let rows := sortByKey detailLE (joinRows db)
  match limit with
  | some n => if n ≠ 0 then (if n < 0 then rows else rows.take n.toNat) else rows
  | none => rows

/-! ## Statistics -/

/-- The record returned by `getWorkoutStats()`. -/
structure WorkoutStatsRow where
  totalWorkouts : Nat
  totalSets : Nat
  totalVolume : Rat
  uniqueExercises : Nat
deriving DecidableEq, Repr

/-- `COALESCE(SUM(weight * reps), 0)` over the sets table. -/
def sumVolume : List SetRow → Rat
  | [] => 0
  | s :: rest => s.weight * (s.reps : Rat) + sumVolume rest

/-- `getWorkoutStats()`: four scalar subqueries over the three tables;
the subqueries always yield a row, and an absent row would fall back to the
zeroed default record. -/
def getWorkoutStats (db : DB) : WorkoutStatsRow :=
  ⟨db.workouts.length, db.sets.length, sumVolume db.sets, db.exercises.length⟩

/-! ## The engine's write surface as a step relation

Read queries return data without touching the state, so the reachable
states of the store are exactly those produced by chains of the write
operations below. -/

/-- One invocation of a write operation of the engine. -/
inductive DBOp where
  | createWorkout (date : String) (notes : Option String)
  | updateWorkout (id : Nat) (date : String) (notes : Option String)
  | deleteWorkout (id : Nat)
  | createExercise (name category : String)
  | getOrCreateExercise (name category : String)
  | updateExercise (id : Nat) (name category : String)
  | deleteExercise (id : Nat)
  | createSet (workoutId exerciseId : Nat) (weight : Rat) (reps : Int)
      (loadType : LoadType) (setOrder : Int)
  | updateSet (id : Nat) (weight : Rat) (reps : Int) (loadType : Option LoadType)
  | deleteSet (id : Nat)
  | clearAllData
  | seedDefaultExercises (defs : List DefaultExerciseDefinition)
  | bulkImport (data : BulkData)
  | migrateI18n (nameToKey : String → Option String)

/-- The state after one operation; a `createSet` whose INSERT fails with a
constraint violation leaves the state unchanged (single-statement rollback). -/
def applyOp : DBOp → DB → DB
  | .createWorkout d n, db => (createWorkout db d n).1
  | .updateWorkout i d n, db => updateWorkout db i d n
  | .deleteWorkout i, db => deleteWorkout db i
  | .createExercise n c, db => (createExercise db n c).1
  | .getOrCreateExercise n c, db => (getOrCreateExercise db n c).1
  | .updateExercise i n c, db => updateExercise db i n c
  | .deleteExercise i, db => deleteExercise db i
  | .createSet w e wt r lt so, db =>
      match createSet db w e wt r lt so with
      | Except.ok p => p.1
      | Except.error _ => db
  | .updateSet i wt r lt, db => updateSet db i wt r lt
  | .deleteSet i, db => deleteSet db i
  | .clearAllData, db => clearAllData db
  | .seedDefaultExercises defs, db => (seedDefaultExercises db defs).1
  | .bulkImport data, db => (bulkImport db data).1
  | .migrateI18n m, db => migrateExerciseI18nKey m db

/-- Running a sequence of operations from a starting state. -/
def runOps (ops : List DBOp) (db : DB) : DB :=
  ops.foldl (fun d op => applyOp op d) db

/-- Referential integrity of the sets table: every set row references an
existing workout row and an existing exercise row. -/
@[reducible] def refIntegrity (db : DB) : Prop :=
  ∀ s ∈ db.sets,
    (∃ w ∈ db.workouts, w.id = s.workout_id) ∧ (∃ e ∈ db.exercises, e.id = s.exercise_id)

/-- Every set row records a positive weight and positive reps. -/
@[reducible] def setsPositive (db : DB) : Prop :=
  ∀ s ∈ db.sets, 0 < s.weight ∧ 0 < s.reps

/-- The caller-side contract of §3: every set-writing call carries a
positive weight (the bodyweight sentinel substitution `weight = 1` having
been applied by the caller) and positive reps. -/
@[reducible] def opPositiveInputs : DBOp → Prop
  | .createSet _ _ w r _ _ => 0 < w ∧ 0 < r
  | .updateSet _ w r _ => 0 < w ∧ 0 < r
  | .bulkImport data => ∀ s ∈ data.sets, 0 < s.weight ∧ 0 < s.reps
  | _ => True

/-- The UNIQUE(name, category) constraint on the exercises table, as a
pairwise property of the stored rows. -/
@[reducible] def exercisePairDistinct (l : List ExerciseRow) : Prop :=
  l.Pairwise (fun a b => ¬(a.name = b.name ∧ a.category = b.category))

/-! ## Concrete states used by witnesses and counterexamples -/

/-- The §8 statistics scenario: sets with weights 60, 100, 62 and reps
8, 5, 7 logged across two distinct workouts, over two exercises. -/
def statsScenarioDB : DB :=
  runOps
    [DBOp.createWorkout "2024-01-01" none,
     DBOp.createWorkout "2024-01-02" none,
     DBOp.createExercise "Bench Press" "Presses",
     DBOp.createExercise "Squat" "Legs",
     DBOp.createSet 1 1 60 8 LoadType.weighted 1,
     DBOp.createSet 1 2 100 5 LoadType.weighted 2,
     DBOp.createSet 2 1 62 7 LoadType.weighted 1]
    emptyDB

/-- Modelled from the spec: the i18n module (`lib/i18n`) itself is not in
the source tree, only its caller is.  Per the spec, its
`getDefaultExerciseNameToKeyMap()` returns a static mapping from known
default exercise names across all supported display languages to i18n keys,
e.g. "Bench Press" (and its localized spellings such as the Russian one) to
`defaultExercises.benchPress`. -/
def specNameToKeyMap : String → Option String := fun name =>
  if name = "Bench Press" then some "defaultExercises.benchPress"
  else if name = "Жим лёжа" then some "defaultExercises.benchPress"
  else if name = "Squat" then some "defaultExercises.squats"
  else if name = "Deadlift" then some "defaultExercises.deadlift"
  else none

/-- A database holding one custom exercise created via plain
`createExercise`, whose name happens to equal a known default name. -/
def customScenarioDB : DB :=
  (createExercise emptyDB "Bench Press" "Presses").1

/-- A state reached by calling `createSet` with `weight = 0` and `reps = 0`
on valid foreign keys: the engine accepts it. -/
def nonPositiveScenarioDB : DB :=
  runOps
    [DBOp.createWorkout "2024-01-01" none,
     DBOp.createExercise "Bench Press" "Presses",
     DBOp.createSet 1 1 0 0 LoadType.weighted 1]
    emptyDB

/-- The database after seeding one default-catalog entry. -/
def seededScenarioDB : DB :=
  (seedDefaultExercises emptyDB
    [⟨"Bench Press", "Presses", "defaultExercises.benchPress"⟩]).1

/-- The exercise row stored by `seededScenarioDB`. -/
def seededRow : ExerciseRow :=
  ⟨1, "Bench Press", "Presses", "", some "defaultExercises.benchPress"⟩

/-! ## General lemmas about the sorting and aggregation helpers -/

theorem insertSorted_perm {α : Type} (le : α → α → Bool) (a : α) (l : List α) :
    (insertSorted le a l).Perm (a :: l) := by
  induction l with
  | nil => simp [insertSorted]
  | cons b rest ih =>
    simp only [insertSorted]
    split
    · exact List.Perm.refl _
    · exact (List.Perm.cons b ih).trans (List.Perm.swap a b rest)

theorem sortByKey_perm {α : Type} (le : α → α → Bool) (l : List α) :
    (sortByKey le l).Perm l := by
  induction l with
  | nil => simp [sortByKey]
  | cons a rest ih =>
    exact (insertSorted_perm le a (sortByKey le rest)).trans (List.Perm.cons a ih)

theorem sortByKey_length {α : Type} (le : α → α → Bool) (l : List α) :
    (sortByKey le l).length = l.length :=
  (sortByKey_perm le l).length_eq

theorem mem_sortByKey {α : Type} (le : α → α → Bool) (l : List α) (x : α) :
    x ∈ sortByKey le l ↔ x ∈ l :=
  (sortByKey_perm le l).mem_iff

theorem sumVolume_eq (l : List SetRow) :
    sumVolume l = (l.map (fun s => s.weight * (s.reps : Rat))).sum := by
  induction l with
  | nil => simp [sumVolume]
  | cons s rest ih => simp [sumVolume, ih]

/-! ## C6: getWorkoutStats -/

/-- C6: `getWorkoutStats` computes its aggregates from the stored rows:
`totalSets` is the number of set rows, `totalVolume` is the sum of
`weight * reps` over all sets (1414 in the §8 scenario with weights
60, 100, 62 and reps 8, 5, 7), `uniqueExercises` is the count of distinct
catalog rows, and on the empty store the zeroed default record is returned
rather than a failure. -/
theorem getWorkoutStats_spec :
    (∀ db : DB,
        (getWorkoutStats db).totalSets = db.sets.length ∧
        (getWorkoutStats db).totalVolume
            = (db.sets.map (fun s => s.weight * (s.reps : Rat))).sum ∧
        (getWorkoutStats db).uniqueExercises = db.exercises.length ∧
        (getWorkoutStats db).totalWorkouts = db.workouts.length) ∧
    getWorkoutStats emptyDB = ⟨0, 0, 0, 0⟩ ∧
    (getWorkoutStats statsScenarioDB).totalSets = 3 ∧
    (getWorkoutStats statsScenarioDB).totalVolume = 1414 ∧
    (getWorkoutStats statsScenarioDB).uniqueExercises = 2 := by
  refine ⟨fun db => ⟨rfl, sumVolume_eq db.sets, rfl, rfl⟩, rfl, by decide, ?_, by decide⟩
  show sumVolume statsScenarioDB.sets = 1414
  have h : statsScenarioDB.sets =
      [⟨1, 1, 1, 60, 8, LoadType.weighted, 1, ""⟩,
       ⟨2, 1, 2, 100, 5, LoadType.weighted, 2, ""⟩,
       ⟨3, 2, 1, 62, 7, LoadType.weighted, 1, ""⟩] := by decide
  rw [h]
  norm_num [sumVolume]

/-! ## C10: getAllSetsWithDetails and limit 0 -/

/-- C10: calling `getAllSetsWithDetails` with `limit = 0` returns all joined
rows, exactly as when the limit is omitted, because the LIMIT clause is
interpolated only for a truthy limit; a positive limit caps the result at
that many rows. -/
theorem getAllSetsWithDetails_limit_zero (db : DB) :
    getAllSetsWithDetails db (some 0) = getAllSetsWithDetails db none ∧
    (getAllSetsWithDetails db (some 0)).length = (joinRows db).length ∧
    (∀ n : Int, 0 < n →
        (getAllSetsWithDetails db (some n)).length
          = min n.toNat (joinRows db).length) := by
  refine ⟨by simp [getAllSetsWithDetails], ?_, ?_⟩
  · simp only [getAllSetsWithDetails]
    simp [sortByKey_length]
  · intro n hn
    have h1 : ¬ n = 0 := by omega
    have h2 : ¬ n < 0 := by omega
    simp [getAllSetsWithDetails, h1, h2, List.length_take, sortByKey_length]

/-- Witness for C10 at the §8 scenario state with a positive limit. -/
theorem getAllSetsWithDetails_limit_zero_witness :
    (getAllSetsWithDetails statsScenarioDB (some 2)).length
      = min (Int.toNat 2) (joinRows statsScenarioDB).length :=
  (getAllSetsWithDetails_limit_zero statsScenarioDB).2.2 2 (by decide)

/-! ## C9: updateSet frame conditions -/

theorem getD_map_of_lt {α β : Type} [Inhabited α] [Inhabited β]
    (f : α → β) (l : List α) (i : Nat) (h : i < l.length) :
    (l.map f).getD i default = f (l.getD i default) := by
  rw [List.getD_eq_getElem?_getD, List.getD_eq_getElem?_getD, List.getElem?_map,
    List.getElem?_eq_getElem h]
  rfl

/-- Both branches of `updateSet` are the same row-wise update, with the
omitted `loadType` defaulting to the row's stored `load_type` (structure
eta makes the two map functions definitionally equal). -/
theorem updateSet_sets_eq (db : DB) (id : Nat) (w : Rat) (r : Int)
    (lt : Option LoadType) :
    (updateSet db id w r lt).sets = db.sets.map (fun s =>
      if s.id = id then
        { s with weight := w, reps := r, load_type := lt.getD s.load_type }
      else s) := by
  cases lt with
  | none => rfl
  | some l => rfl

/-- C9: `updateSet(id, weight, reps, loadType?)` changes only the weight and
reps (and, when supplied, the load type) of the rows bearing that id; their
other columns, every other set row, and the workouts and exercises tables
are untouched. -/
theorem updateSet_frame (db : DB) (id : Nat) (w : Rat) (r : Int)
    (lt : Option LoadType) (i : Nat) (h : i < db.sets.length) :
    (updateSet db id w r lt).workouts = db.workouts ∧
    (updateSet db id w r lt).exercises = db.exercises ∧
    (updateSet db id w r lt).lastId = db.lastId ∧
    (updateSet db id w r lt).sets.length = db.sets.length ∧
    ((db.sets.getD i default).id ≠ id →
        (updateSet db id w r lt).sets.getD i default = db.sets.getD i default) ∧
    ((db.sets.getD i default).id = id →
        ((updateSet db id w r lt).sets.getD i default).weight = w ∧
        ((updateSet db id w r lt).sets.getD i default).reps = r ∧
        ((updateSet db id w r lt).sets.getD i default).load_type
            = lt.getD (db.sets.getD i default).load_type ∧
        ((updateSet db id w r lt).sets.getD i default).workout_id
            = (db.sets.getD i default).workout_id ∧
        ((updateSet db id w r lt).sets.getD i default).exercise_id
            = (db.sets.getD i default).exercise_id ∧
        ((updateSet db id w r lt).sets.getD i default).set_order
            = (db.sets.getD i default).set_order ∧
        ((updateSet db id w r lt).sets.getD i default).created_at
            = (db.sets.getD i default).created_at ∧
        ((updateSet db id w r lt).sets.getD i default).id
            = (db.sets.getD i default).id) := by
  have hsets := updateSet_sets_eq db id w r lt
  have hget := getD_map_of_lt (fun s =>
      if s.id = id then
        { s with weight := w, reps := r, load_type := lt.getD s.load_type }
      else s) db.sets i h
  refine ⟨by cases lt <;> rfl, by cases lt <;> rfl, by cases lt <;> rfl,
    by rw [hsets, List.length_map], ?_, ?_⟩
  · intro hne
    rw [hsets, hget]
    dsimp only
    rw [if_neg hne]
  · intro heq
    rw [hsets, hget]
    dsimp only
    rw [if_pos heq]
    exact ⟨rfl, rfl, rfl, rfl, rfl, rfl, rfl, rfl⟩

/-- Witness for C9: updating set 1 in the §8 scenario leaves the other
tables untouched and preserves the foreign keys of the updated row. -/
theorem updateSet_frame_witness :
    (updateSet statsScenarioDB 1 5 6 none).workouts = statsScenarioDB.workouts ∧
    (updateSet statsScenarioDB 1 5 6 none).exercises = statsScenarioDB.exercises :=
  ⟨(updateSet_frame statsScenarioDB 1 5 6 none 0 (by decide)).1,
   (updateSet_frame statsScenarioDB 1 5 6 none 0 (by decide)).2.1⟩

/-! ## C4: idempotence of the i18n_key backfill -/

theorem backfillRow_idem (m : String → Option String) (e : ExerciseRow) :
    backfillRow m (backfillRow m e) = backfillRow m e := by
  by_cases hk : e.i18n_key = none
  · unfold backfillRow
    cases hl : jsStrOr (m (jsTrim e.name)) (m e.name) with
    | none => simp [hk, hl]
    | some key =>
      by_cases hke : key = ""
      · simp [hk, hl, hke]
      · simp [hk, hl, hke]
  · unfold backfillRow
    simp [hk]

/-- C4: the `i18n_key` backfill is idempotent for every name-to-key map and
every database state: a second run reproduces the state of the first run,
and a row whose `i18n_key` is already non-null is mapped to itself (it is
excluded by the `WHERE i18n_key IS NULL` selection) and survives verbatim. -/
theorem migrateExerciseI18nKey_idem (m : String → Option String) (db : DB) :
    migrateExerciseI18nKey m (migrateExerciseI18nKey m db)
        = migrateExerciseI18nKey m db ∧
    (∀ e ∈ db.exercises, e.i18n_key ≠ none →
        backfillRow m e = e ∧ e ∈ (migrateExerciseI18nKey m db).exercises) := by
  constructor
  · have h : (db.exercises.map (backfillRow m)).map (backfillRow m)
        = db.exercises.map (backfillRow m) := by
      rw [List.map_map]
      exact List.map_congr_left (fun e _ => backfillRow_idem m e)
    simp [migrateExerciseI18nKey, h]
  · intro e he hk
    have hb : backfillRow m e = e := by
      unfold backfillRow
      simp [hk]
    refine ⟨hb, ?_⟩
    have hm := List.mem_map_of_mem (backfillRow m) he
    rw [hb] at hm
    simpa [migrateExerciseI18nKey] using hm

/-- Witness for C4: the seeded default row already carries its key and is
untouched by a backfill run. -/
theorem migrateExerciseI18nKey_idem_witness :
    backfillRow specNameToKeyMap seededRow = seededRow ∧
    seededRow ∈ (migrateExerciseI18nKey specNameToKeyMap seededScenarioDB).exercises :=
  (migrateExerciseI18nKey_idem specNameToKeyMap seededScenarioDB).2 seededRow
    (by decide) (by decide)

/-! ## C8: update and delete of an absent exercise id -/

/-- C8: for an id with no row in the exercises table, `updateExercise` and
`deleteExercise` complete (the model functions are total, as the source
never inspects the affected-row count) and leave the entire state unchanged;
the cascade of `deleteExercise` removes nothing because, by referential
integrity, no set references the absent id. -/
theorem updateDeleteExercise_absent (db : DB) (id : Nat) (name category : String)
    (habs : ∀ e ∈ db.exercises, e.id ≠ id) (hri : refIntegrity db) :
    updateExercise db id name category = db ∧ deleteExercise db id = db := by
  constructor
  · have h : db.exercises.map (fun e =>
        if e.id = id then { e with name := name, category := category } else e)
        = db.exercises := by
      have h1 : db.exercises.map (fun e =>
          if e.id = id then { e with name := name, category := category } else e)
          = db.exercises.map (fun e => e) :=
        List.map_congr_left (fun e he => if_neg (habs e he))
      rw [h1, List.map_id']
    simp [updateExercise, h]
  · have h1 : db.exercises.filter (fun e => e.id != id) = db.exercises := by
      rw [List.filter_eq_self]
      intro e he
      simpa using habs e he
    have h2 : db.sets.filter (fun s => s.exercise_id != id) = db.sets := by
      rw [List.filter_eq_self]
      intro s hs
      obtain ⟨-, e, he, heid⟩ := hri s hs
      have : s.exercise_id ≠ id := fun hEq => habs e he (heid.trans hEq)
      simpa using this
    simp [deleteExercise, h1, h2]

/-- Witness for C8: id 99 is absent from the §8 scenario state. -/
theorem updateDeleteExercise_absent_witness :
    updateExercise statsScenarioDB 99 "X" "Y" = statsScenarioDB ∧
    deleteExercise statsScenarioDB 99 = statsScenarioDB :=
  updateDeleteExercise_absent statsScenarioDB 99 "X" "Y" (by decide) (by decide)

/-! ## C2: createExercise called twice -/

theorem filter_pair_length_le_one (l : List ExerciseRow)
    (h : exercisePairDistinct l) (name category : String) :
    (l.filter (fun e => e.name = name && e.category = category)).length ≤ 1 := by
  induction l with
  | nil => simp
  | cons a rest ih =>
    replace h := List.pairwise_cons.mp h
    by_cases ha : a.name = name ∧ a.category = category
    · have hrest : rest.filter (fun e => e.name = name && e.category = category) = [] := by
        rw [List.filter_eq_nil_iff]
        intro b hb hpb
        have hb2 : b.name = name ∧ b.category = category := by simpa using hpb
        exact h.1 b hb ⟨ha.1.trans hb2.1.symm, ha.2.trans hb2.2.symm⟩
      have hpa : (a.name = name && a.category = category) = true := by simp [ha.1, ha.2]
      simp [List.filter_cons, hpa, hrest]
    · have hpa : (a.name = name && a.category = category) = false := by
        by_contra hc
        exact ha (by simpa using hc)
      simp only [List.filter_cons, hpa, Bool.false_eq_true, if_false]
      exact ih h.2

/-- When a matching row exists, `INSERT OR IGNORE` is ignored and the state
is unchanged; the returned id is the re-selected row id when the
connection's `last_insert_rowid` is still 0 and the stale `lastId` otherwise. -/
theorem createExercise_found (db : DB) (name category : String) (e : ExerciseRow)
    (hf : findExercise db.exercises name category = some e) :
    createExercise db name category
      = (db, if db.lastId = 0 then e.id else db.lastId) := by
  unfold createExercise
  rw [hf]
  by_cases h0 : db.lastId = 0
  · simp [h0, hf]
  · simp [h0]

/-- When no matching row exists, `createExercise` is the plain insert. -/
theorem createExercise_notFound (db : DB) (name category : String)
    (hf : findExercise db.exercises name category = none) :
    createExercise db name category = insertExerciseRow db name category none := by
  unfold createExercise
  rw [hf]

/-- C2: calling `createExercise(name, category)` twice returns the same id
both times, leaves exactly one row with that (name, category) pair, and the
second call inserts nothing. -/
theorem createExercise_twice (db : DB) (name category : String)
    (h : exercisePairDistinct db.exercises) :
    (createExercise (createExercise db name category).1 name category).2
        = (createExercise db name category).2 ∧
    ((createExercise (createExercise db name category).1 name category).1.exercises.filter
        (fun e => e.name = name && e.category = category)).length = 1 ∧
    (createExercise (createExercise db name category).1 name category).1.exercises
        = (createExercise db name category).1.exercises := by
  cases hf : findExercise db.exercises name category with
  | some e =>
    have h1 := createExercise_found db name category e hf
    have hstate : (createExercise db name category).1 = db := by rw [h1]
    have h2 : createExercise (createExercise db name category).1 name category
        = createExercise db name category := by rw [hstate]
    have hf' : db.exercises.find? (fun x => x.name = name && x.category = category)
        = some e := hf
    have hmem : e ∈ db.exercises := List.mem_of_find?_eq_some hf'
    have hpe := List.find?_some hf'
    have hin : e ∈ db.exercises.filter (fun e => e.name = name && e.category = category) :=
      List.mem_filter.mpr ⟨hmem, hpe⟩
    have hge : 1 ≤ (db.exercises.filter
        (fun e => e.name = name && e.category = category)).length :=
      List.length_pos.mpr (List.ne_nil_of_mem hin)
    have hle := filter_pair_length_le_one db.exercises h name category
    refine ⟨by rw [h2], ?_, by rw [h2]⟩
    rw [h2, hstate]
    omega
  | none =>
    have h1 := createExercise_notFound db name category hf
    have hex : (createExercise db name category).1.exercises
        = db.exercises ++ [⟨db.nextExerciseId, name, category, db.now, none⟩] := by
      rw [h1]; rfl
    have hlast : (createExercise db name category).1.lastId = db.nextExerciseId := by
      rw [h1]; rfl
    have hval : (createExercise db name category).2 = db.nextExerciseId := by
      rw [h1]; rfl
    have hfind2 : findExercise (createExercise db name category).1.exercises name category
        = some ⟨db.nextExerciseId, name, category, db.now, none⟩ := by
      rw [hex]
      unfold findExercise
      rw [List.find?_append]
      unfold findExercise at hf
      rw [hf]
      simp
    have h2 := createExercise_found _ name category _ hfind2
    refine ⟨?_, ?_, by rw [h2, hex]⟩
    · rw [h2, hval, hlast]
      by_cases hz : db.nextExerciseId = 0
      · simp [hz]
      · simp [hz]
    · rw [h2]
      dsimp only
      rw [hex, List.filter_append]
      have hnil : db.exercises.filter (fun e => e.name = name && e.category = category)
          = [] := by
        rw [List.filter_eq_nil_iff]
        intro b hb hpb
        exact (List.find?_eq_none.mp hf b hb) hpb
      rw [hnil]
      simp

/-- Witness for C2: two identical `createExercise` calls on the fresh store. -/
theorem createExercise_twice_witness :
    (createExercise (createExercise emptyDB "Bench Press" "Presses").1
        "Bench Press" "Presses").2
      = (createExercise emptyDB "Bench Press" "Presses").2 ∧
    ((createExercise (createExercise emptyDB "Bench Press" "Presses").1
        "Bench Press" "Presses").1.exercises.filter
        (fun e => e.name = "Bench Press" && e.category = "Presses")).length = 1 ∧
    (createExercise (createExercise emptyDB "Bench Press" "Presses").1
        "Bench Press" "Presses").1.exercises
      = (createExercise emptyDB "Bench Press" "Presses").1.exercises :=
  createExercise_twice emptyDB "Bench Press" "Presses" (by decide)

/-! ## Shape lemmas for the bulk-import phases and the seeding loop -/

theorem getD_ne_zero {o : Option Nat} (h : o.getD 0 ≠ 0) : o = some (o.getD 0) := by
  cases o with
  | none => simp at h
  | some v => rfl

theorem getElem_getD_mem {l : List Nat} {i : Nat} (h : (l[i]?).getD 0 ≠ 0) :
    (l[i]?).getD 0 ∈ l := by
  cases hl : l[i]? with
  | none => simp [hl] at h
  | some v =>
    have hg : l.get? i = some v := by rw [List.get?_eq_getElem?, hl]
    have := List.get?_mem hg
    simpa [hl] using this

theorem lookup_mem {l : List (String × Nat)} {k : String} {v : Nat}
    (h : l.lookup k = some v) : (k, v) ∈ l := by
  induction l with
  | nil => simp [List.lookup] at h
  | cons a rest ih =>
    obtain ⟨ka, va⟩ := a
    by_cases hk : k = ka
    · subst hk
      simp [List.lookup] at h
      simp [h]
    · have hb : (k == ka) = false := beq_eq_false_iff_ne.mpr hk
      simp [List.lookup, hb] at h
      exact List.mem_cons.mpr (Or.inr (ih h))

theorem bulkInsertWorkouts_spec (ws : List BulkWorkout) (db : DB) :
    (bulkInsertWorkouts ws db).1.exercises = db.exercises ∧
    (bulkInsertWorkouts ws db).1.sets = db.sets ∧
    (bulkInsertWorkouts ws db).2.length = ws.length ∧
    (bulkInsertWorkouts ws db).1.workouts.length = db.workouts.length + ws.length ∧
    (∀ w ∈ db.workouts, w ∈ (bulkInsertWorkouts ws db).1.workouts) ∧
    (∀ id ∈ (bulkInsertWorkouts ws db).2,
        ∃ w ∈ (bulkInsertWorkouts ws db).1.workouts, w.id = id) := by
  induction ws generalizing db with
  | nil => simp [bulkInsertWorkouts]
  | cons w ws ih =>
    obtain ⟨ih1, ih2, ih3, ih4, ih5, ih6⟩ := ih (insertWorkoutRow db w.date w.notes).1
    have hw : (insertWorkoutRow db w.date w.notes).1.workouts
        = db.workouts ++ [⟨db.nextWorkoutId, w.date, w.notes, db.now⟩] := rfl
    simp only [bulkInsertWorkouts]
    refine ⟨by rw [ih1]; rfl, by rw [ih2]; rfl, by simp [ih3], ?_, ?_, ?_⟩
    · rw [ih4, hw]
      simp
      omega
    · intro x hx
      exact ih5 x (by rw [hw]; exact List.mem_append_left _ hx)
    · intro id hid
      rcases List.mem_cons.mp hid with hhead | htail
      · subst hhead
        have hrow : (⟨db.nextWorkoutId, w.date, w.notes, db.now⟩ : WorkoutRow)
            ∈ (insertWorkoutRow db w.date w.notes).1.workouts := by
          rw [hw]
          exact List.mem_append_right _ (by simp)
        exact ⟨_, ih5 _ hrow, rfl⟩
      · exact ih6 id htail

theorem bulkInsertExercises_spec (es : List BulkExercise) (db : DB)
    (m : List (String × Nat)) (c : Nat) :
    (bulkInsertExercises es db m c).1.workouts = db.workouts ∧
    (bulkInsertExercises es db m c).1.sets = db.sets ∧
    (∀ e ∈ db.exercises, e ∈ (bulkInsertExercises es db m c).1.exercises) ∧
    (∀ e ∈ (bulkInsertExercises es db m c).1.exercises,
        e ∈ db.exercises ∨ e.i18n_key = none) ∧
    (∀ kv ∈ (bulkInsertExercises es db m c).2.1,
        kv ∈ m ∨ ∃ e ∈ (bulkInsertExercises es db m c).1.exercises, e.id = kv.2) ∧
    (bulkInsertExercises es db m c).1.exercises.length + c
        = db.exercises.length + (bulkInsertExercises es db m c).2.2 := by
  induction es generalizing db m c with
  | nil =>
    exact ⟨rfl, rfl, fun e he => he, fun e he => Or.inl he, fun kv hkv => Or.inl hkv, rfl⟩
  | cons e es ih =>
    cases hm : m.lookup (e.name ++ "|" ++ e.category) with
    | some v =>
      simp only [bulkInsertExercises, hm]
      exact ih db m c
    | none =>
      cases hfe : findExercise db.exercises e.name e.category with
      | some ex =>
        simp only [bulkInsertExercises, hm, hfe]
        obtain ⟨ih1, ih2, ih3, ih4, ih5, ih6⟩ :=
          ih db (m ++ [(e.name ++ "|" ++ e.category, ex.id)]) c
        refine ⟨ih1, ih2, ih3, ih4, ?_, ih6⟩
        intro kv hkv
        rcases ih5 kv hkv with hin | hex
        · rcases List.mem_append.mp hin with h1 | h2
          · exact Or.inl h1
          · have hkveq : kv = (e.name ++ "|" ++ e.category, ex.id) := by simpa using h2
            have hexm : ex ∈ db.exercises := List.mem_of_find?_eq_some hfe
            exact Or.inr ⟨ex, ih3 ex hexm, by rw [hkveq]⟩
        · exact Or.inr hex
      | none =>
        simp only [bulkInsertExercises, hm, hfe]
        obtain ⟨ih1, ih2, ih3, ih4, ih5, ih6⟩ :=
          ih (insertExerciseRow db e.name e.category none).1
            (m ++ [(e.name ++ "|" ++ e.category,
              (insertExerciseRow db e.name e.category none).2)]) (c + 1)
        have hx : (insertExerciseRow db e.name e.category none).1.exercises
            = db.exercises ++ [⟨db.nextExerciseId, e.name, e.category, db.now, none⟩] := rfl
        refine ⟨by rw [ih1]; rfl, by rw [ih2]; rfl, ?_, ?_, ?_, ?_⟩
        · intro x hxm
          exact ih3 x (by rw [hx]; exact List.mem_append_left _ hxm)
        · intro x hxm
          rcases ih4 x hxm with h1 | h2
          · rw [hx] at h1
            rcases List.mem_append.mp h1 with h3 | h4
            · exact Or.inl h3
            · have : x = ⟨db.nextExerciseId, e.name, e.category, db.now, none⟩ := by
                simpa using h4
              exact Or.inr (by rw [this])
          · exact Or.inr h2
        · intro kv hkv
          rcases ih5 kv hkv with hin | hex
          · rcases List.mem_append.mp hin with h1 | h2
            · exact Or.inl h1
            · have hkveq : kv = (e.name ++ "|" ++ e.category, db.nextExerciseId) := by
                simpa using h2
              have hrowm : (⟨db.nextExerciseId, e.name, e.category, db.now, none⟩ : ExerciseRow)
                  ∈ (insertExerciseRow db e.name e.category none).1.exercises := by
                rw [hx]
                exact List.mem_append_right _ (by simp)
              exact Or.inr ⟨_, ih3 _ hrowm, by rw [hkveq]⟩
          · exact Or.inr hex
        · have hlen : (insertExerciseRow db e.name e.category none).1.exercises.length
              = db.exercises.length + 1 := by
            rw [hx]
            simp
          omega

theorem bulkInsertSets_spec (ss : List BulkSet) (wm : List Nat)
    (em : List (String × Nat)) (db : DB) :
    (bulkInsertSets ss wm em db).1.workouts = db.workouts ∧
    (bulkInsertSets ss wm em db).1.exercises = db.exercises ∧
    (bulkInsertSets ss wm em db).2 = (ss.filter (bulkSetHit wm em)).length ∧
    (bulkInsertSets ss wm em db).1.sets.length
        = db.sets.length + (bulkInsertSets ss wm em db).2 ∧
    (∀ s ∈ (bulkInsertSets ss wm em db).1.sets, s ∈ db.sets ∨
        ((∃ b ∈ ss, s.weight = b.weight ∧ s.reps = b.reps) ∧
         s.workout_id ∈ wm ∧ ∃ kv ∈ em, kv.2 = s.exercise_id)) := by
  induction ss generalizing db with
  | nil =>
    exact ⟨rfl, rfl, by simp [bulkInsertSets], by simp [bulkInsertSets], fun s hs => Or.inl hs⟩
  | cons s ss ih =>
    by_cases hhit : bulkSetHit wm em s
    · obtain ⟨ih1, ih2, ih3, ih4, ih5⟩ :=
        ih (insertSetRow db ((wm[s.workoutIndex]?).getD 0)
          ((em.lookup (s.exerciseName ++ "|" ++ s.exerciseCategory)).getD 0)
          s.weight s.reps s.loadType s.setOrder).1
      have hsets : (insertSetRow db ((wm[s.workoutIndex]?).getD 0)
          ((em.lookup (s.exerciseName ++ "|" ++ s.exerciseCategory)).getD 0)
          s.weight s.reps s.loadType s.setOrder).1.sets
          = db.sets ++ [⟨db.nextSetId, (wm[s.workoutIndex]?).getD 0,
              (em.lookup (s.exerciseName ++ "|" ++ s.exerciseCategory)).getD 0,
              s.weight, s.reps, s.loadType, s.setOrder, db.now⟩] := rfl
      simp only [bulkInsertSets]
      rw [if_pos hhit]
      refine ⟨by rw [ih1]; rfl, by rw [ih2]; rfl, ?_, ?_, ?_⟩
      · rw [List.filter_cons, if_pos hhit]
        simp [ih3]
      · rw [ih4, hsets]
        simp
        omega
      · intro x hx
        rcases ih5 x hx with hold | hnew
        · rw [hsets] at hold
          rcases List.mem_append.mp hold with h1 | h2
          · exact Or.inl h1
          · have hxeq : x = ⟨db.nextSetId, (wm[s.workoutIndex]?).getD 0,
                (em.lookup (s.exerciseName ++ "|" ++ s.exerciseCategory)).getD 0,
                s.weight, s.reps, s.loadType, s.setOrder, db.now⟩ := by
              simpa using h2
            have hb := hhit
            unfold bulkSetHit at hb
            rw [Bool.and_eq_true] at hb
            have hw : (wm[s.workoutIndex]?).getD 0 ≠ 0 := by
              simpa using hb.1
            have he : (em.lookup (s.exerciseName ++ "|" ++ s.exerciseCategory)).getD 0 ≠ 0 := by
              simpa using hb.2
            refine Or.inr ⟨⟨s, List.mem_cons_self .., by rw [hxeq]; exact ⟨rfl, rfl⟩⟩, ?_, ?_⟩
            · rw [hxeq]
              exact getElem_getD_mem hw
            · refine ⟨(s.exerciseName ++ "|" ++ s.exerciseCategory,
                  (em.lookup (s.exerciseName ++ "|" ++ s.exerciseCategory)).getD 0),
                lookup_mem (getD_ne_zero he), by rw [hxeq]⟩
        · rcases hnew with ⟨⟨b, hbm, hbp⟩, hw, he⟩
          exact Or.inr ⟨⟨b, List.mem_cons.mpr (Or.inr hbm), hbp⟩, hw, he⟩
    · obtain ⟨ih1, ih2, ih3, ih4, ih5⟩ := ih db
      simp only [bulkInsertSets]
      rw [if_neg hhit]
      refine ⟨ih1, ih2, ?_, ih4, ?_⟩
      · rw [List.filter_cons, if_neg hhit]
        exact ih3
      · intro x hx
        rcases ih5 x hx with hold | hnew
        · exact Or.inl hold
        · rcases hnew with ⟨⟨b, hbm, hbp⟩, hw, he⟩
          exact Or.inr ⟨⟨b, List.mem_cons.mpr (Or.inr hbm), hbp⟩, hw, he⟩

theorem seedLoop_spec (defs : List DefaultExerciseDefinition) (db : DB) (c : Nat) :
    (seedLoop defs db c).1.workouts = db.workouts ∧
    (seedLoop defs db c).1.sets = db.sets ∧
    ∃ new, (seedLoop defs db c).1.exercises = db.exercises ++ new ∧
      ∀ e ∈ new, ∃ d ∈ defs, e.name = d.name ∧ e.category = d.category ∧
        e.i18n_key = some d.i18n_key := by
  induction defs generalizing db c with
  | nil =>
    exact ⟨rfl, rfl, [], by simp [seedLoop], by simp⟩
  | cons d rest ih =>
    cases hf : findExercise db.exercises d.name d.category with
    | some e =>
      simp only [seedLoop, hf]
      obtain ⟨ih1, ih2, new, hnew, hprop⟩ := ih db c
      exact ⟨ih1, ih2, new, hnew, fun x hx =>
        (hprop x hx).imp (fun d' hd' => ⟨List.mem_cons.mpr (Or.inr hd'.1), hd'.2⟩)⟩
    | none =>
      simp only [seedLoop, hf]
      obtain ⟨ih1, ih2, new, hnew, hprop⟩ :=
        ih (insertExerciseRow db d.name d.category (some d.i18n_key)).1 (c + 1)
      have hx : (insertExerciseRow db d.name d.category (some d.i18n_key)).1.exercises
          = db.exercises ++ [⟨db.nextExerciseId, d.name, d.category, db.now,
              some d.i18n_key⟩] := rfl
      refine ⟨by rw [ih1]; rfl, by rw [ih2]; rfl,
        ⟨db.nextExerciseId, d.name, d.category, db.now, some d.i18n_key⟩ :: new, ?_, ?_⟩
      · rw [hnew, hx, List.append_assoc]
        rfl
      · intro x hx2
        rcases List.mem_cons.mp hx2 with hhead | htail
        · exact ⟨d, List.mem_cons_self .., by rw [hhead]; exact ⟨rfl, rfl, rfl⟩⟩
        · exact (hprop x htail).imp (fun d' hd' => ⟨List.mem_cons.mpr (Or.inr hd'.1), hd'.2⟩)

/-! ## C3: referential integrity -/

theorem backfillRow_fields (m : String → Option String) (e : ExerciseRow) :
    (backfillRow m e).id = e.id ∧ (backfillRow m e).name = e.name ∧
    (backfillRow m e).category = e.category := by
  unfold backfillRow
  by_cases hk : e.i18n_key = none
  · cases hl : jsStrOr (m (jsTrim e.name)) (m e.name) with
    | none => simp [hk, hl]
    | some key =>
      by_cases hke : key = "" <;> simp [hk, hl, hke]
  · simp [hk]

theorem refIntegrity_of_monotone (db db' : DB)
    (hw : ∀ w ∈ db.workouts, w ∈ db'.workouts)
    (he : ∀ e ∈ db.exercises, e ∈ db'.exercises)
    (hs : ∀ s ∈ db'.sets, s ∈ db.sets)
    (hri : refIntegrity db) : refIntegrity db' := by
  intro s hsm
  obtain ⟨⟨w, hwm, hwid⟩, ⟨e, hem, heid⟩⟩ := hri s (hs s hsm)
  exact ⟨⟨w, hw w hwm, hwid⟩, ⟨e, he e hem, heid⟩⟩

/-- C3: referential integrity of sets is preserved by every write operation
of the engine, and the two delete cascades leave no set row referencing the
deleted id. -/
theorem refIntegrity_preserved :
    (∀ (op : DBOp) (db : DB), refIntegrity db → refIntegrity (applyOp op db)) ∧
    (∀ (db : DB) (id : Nat), ∀ s ∈ (deleteWorkout db id).sets, s.workout_id ≠ id) ∧
    (∀ (db : DB) (id : Nat), ∀ s ∈ (deleteExercise db id).sets, s.exercise_id ≠ id) := by
  refine ⟨?_, ?_, ?_⟩
  · intro op db hri
    cases op with
    | createWorkout d n =>
      exact refIntegrity_of_monotone db _ (fun w hw => List.mem_append_left _ hw)
        (fun e he => he) (fun s hs => hs) hri
    | updateWorkout i d n =>
      intro s hs
      obtain ⟨⟨w, hwm, hwid⟩, ⟨e, hem, heid⟩⟩ := hri s hs
      refine ⟨⟨(if w.id = i then { w with date := d, notes := n } else w),
        List.mem_map_of_mem _ hwm, ?_⟩, ⟨e, hem, heid⟩⟩
      by_cases h : w.id = i
      · rw [if_pos h]
        exact hwid
      · rw [if_neg h]
        exact hwid
    | deleteWorkout i =>
      intro s hs
      have hs' := List.mem_filter.mp hs
      obtain ⟨⟨w, hwm, hwid⟩, ⟨e, hem, heid⟩⟩ := hri s hs'.1
      refine ⟨⟨w, List.mem_filter.mpr ⟨hwm, ?_⟩, hwid⟩, ⟨e, hem, heid⟩⟩
      rw [hwid]
      exact hs'.2
    | createExercise nm c =>
      cases hf : findExercise db.exercises nm c with
      | some e0 =>
        show refIntegrity (createExercise db nm c).1
        rw [createExercise_found db nm c e0 hf]
        exact hri
      | none =>
        show refIntegrity (createExercise db nm c).1
        rw [createExercise_notFound db nm c hf]
        exact refIntegrity_of_monotone db _ (fun w hw => hw)
          (fun e he => List.mem_append_left _ he) (fun s hs => hs) hri
    | getOrCreateExercise nm c =>
      show refIntegrity (getOrCreateExercise db nm c).1
      unfold getOrCreateExercise
      cases hf : findExercise db.exercises nm c with
      | some e0 => exact hri
      | none =>
        exact refIntegrity_of_monotone db _ (fun w hw => hw)
          (fun e he => List.mem_append_left _ he) (fun s hs => hs) hri
    | updateExercise i nm c =>
      intro s hs
      obtain ⟨⟨w, hwm, hwid⟩, ⟨e, hem, heid⟩⟩ := hri s hs
      refine ⟨⟨w, hwm, hwid⟩,
        ⟨(if e.id = i then { e with name := nm, category := c } else e),
          List.mem_map_of_mem _ hem, ?_⟩⟩
      by_cases h : e.id = i
      · rw [if_pos h]
        exact heid
      · rw [if_neg h]
        exact heid
    | deleteExercise i =>
      intro s hs
      have hs' := List.mem_filter.mp hs
      obtain ⟨⟨w, hwm, hwid⟩, ⟨e, hem, heid⟩⟩ := hri s hs'.1
      refine ⟨⟨w, hwm, hwid⟩, ⟨e, List.mem_filter.mpr ⟨hem, ?_⟩, heid⟩⟩
      rw [heid]
      exact hs'.2
    | createSet wid eid wt rp lt so =>
      show refIntegrity (match createSet db wid eid wt rp lt so with
        | Except.ok p => p.1 | Except.error _ => db)
      unfold createSet
      by_cases hc : (db.workouts.any (fun w => w.id = wid) &&
          db.exercises.any (fun e => e.id = eid)) = true
      · rw [if_pos hc]
        intro s hs
        rcases List.mem_append.mp hs with hold | hnew
        · exact hri s hold
        · have hseq : s = ⟨db.nextSetId, wid, eid, wt, rp, lt, so, db.now⟩ := by
            simpa using hnew
          rw [Bool.and_eq_true] at hc
          obtain ⟨w, hwm, hwp⟩ := List.any_eq_true.mp hc.1
          obtain ⟨e, hem, hep⟩ := List.any_eq_true.mp hc.2
          refine ⟨⟨w, hwm, ?_⟩, ⟨e, hem, ?_⟩⟩
          · rw [hseq]
            exact of_decide_eq_true hwp
          · rw [hseq]
            exact of_decide_eq_true hep
      · rw [if_neg hc]
        exact hri
    | updateSet i wt rp lt =>
      intro s2 hs2
      replace hs2 : s2 ∈ (updateSet db i wt rp lt).sets := hs2
      rw [updateSet_sets_eq db i wt rp lt] at hs2
      obtain ⟨s, hsm, rfl⟩ := List.mem_map.mp hs2
      obtain ⟨⟨w, hwm, hwid⟩, ⟨e, hem, heid⟩⟩ := hri s hsm
      constructor
      · refine ⟨w, ?_, ?_⟩
        · show w ∈ (updateSet db i wt rp lt).workouts
          cases lt <;> exact hwm
        · by_cases h : s.id = i
          · rw [if_pos h]
            exact hwid
          · rw [if_neg h]
            exact hwid
      · refine ⟨e, ?_, ?_⟩
        · show e ∈ (updateSet db i wt rp lt).exercises
          cases lt <;> exact hem
        · by_cases h : s.id = i
          · rw [if_pos h]
            exact heid
          · rw [if_neg h]
            exact heid
    | deleteSet i =>
      intro s hs
      exact hri s (List.mem_filter.mp hs).1
    | clearAllData =>
      intro s hs
      exact absurd hs (List.not_mem_nil s)
    | seedDefaultExercises defs =>
      obtain ⟨h1, h2, new, hnew, -⟩ := seedLoop_spec defs db 0
      refine refIntegrity_of_monotone db _ ?_ ?_ ?_ hri
      · intro w hw
        show w ∈ (seedLoop defs db 0).1.workouts
        rw [h1]
        exact hw
      · intro e he
        show e ∈ (seedLoop defs db 0).1.exercises
        rw [hnew]
        exact List.mem_append_left _ he
      · intro s hs
        replace hs : s ∈ (seedLoop defs db 0).1.sets := hs
        rw [h2] at hs
        exact hs
    | bulkImport data =>
      obtain ⟨bw1, bw2, bw3, bw4, bw5, bw6⟩ := bulkInsertWorkouts_spec data.workouts db
      obtain ⟨be1, be2, be3, be4, be5, be6⟩ :=
        bulkInsertExercises_spec data.exercises (bulkInsertWorkouts data.workouts db).1 [] 0
      obtain ⟨bs1, bs2, bs3, bs4, bs5⟩ :=
        bulkInsertSets_spec data.sets (bulkInsertWorkouts data.workouts db).2
          (bulkInsertExercises data.exercises
            (bulkInsertWorkouts data.workouts db).1 [] 0).2.1
          (bulkInsertExercises data.exercises
            (bulkInsertWorkouts data.workouts db).1 [] 0).1
      intro s hs
      replace hs : s ∈ (bulkInsertSets data.sets (bulkInsertWorkouts data.workouts db).2
          (bulkInsertExercises data.exercises
            (bulkInsertWorkouts data.workouts db).1 [] 0).2.1
          (bulkInsertExercises data.exercises
            (bulkInsertWorkouts data.workouts db).1 [] 0).1).1.sets := hs
      rcases bs5 s hs with hold | ⟨-, hwmem, ⟨kv, hkvm, hkv2⟩⟩
      · rw [be2, bw2] at hold
        obtain ⟨⟨w, hwm, hwid⟩, ⟨e, hem, heid⟩⟩ := hri s hold
        constructor
        · refine ⟨w, ?_, hwid⟩
          have hgoal : w ∈ (bulkInsertSets data.sets (bulkInsertWorkouts data.workouts db).2
              (bulkInsertExercises data.exercises
                (bulkInsertWorkouts data.workouts db).1 [] 0).2.1
              (bulkInsertExercises data.exercises
                (bulkInsertWorkouts data.workouts db).1 [] 0).1).1.workouts := by
            rw [bs1, be1]
            exact bw5 w hwm
          exact hgoal
        · refine ⟨e, ?_, heid⟩
          have hgoal : e ∈ (bulkInsertSets data.sets (bulkInsertWorkouts data.workouts db).2
              (bulkInsertExercises data.exercises
                (bulkInsertWorkouts data.workouts db).1 [] 0).2.1
              (bulkInsertExercises data.exercises
                (bulkInsertWorkouts data.workouts db).1 [] 0).1).1.exercises := by
            rw [bs2]
            exact be3 e (by rw [bw1]; exact hem)
          exact hgoal
      · constructor
        · obtain ⟨w, hwm, hwid⟩ := bw6 s.workout_id hwmem
          refine ⟨w, ?_, hwid⟩
          have hgoal : w ∈ (bulkInsertSets data.sets (bulkInsertWorkouts data.workouts db).2
              (bulkInsertExercises data.exercises
                (bulkInsertWorkouts data.workouts db).1 [] 0).2.1
              (bulkInsertExercises data.exercises
                (bulkInsertWorkouts data.workouts db).1 [] 0).1).1.workouts := by
            rw [bs1, be1]
            exact hwm
          exact hgoal
        · rcases be5 kv hkvm with hnil | ⟨e, hem, heid⟩
          · exact absurd hnil (List.not_mem_nil kv)
          · refine ⟨e, ?_, by rw [heid, hkv2]⟩
            have hgoal : e ∈ (bulkInsertSets data.sets (bulkInsertWorkouts data.workouts db).2
                (bulkInsertExercises data.exercises
                  (bulkInsertWorkouts data.workouts db).1 [] 0).2.1
                (bulkInsertExercises data.exercises
                  (bulkInsertWorkouts data.workouts db).1 [] 0).1).1.exercises := by
              rw [bs2]
              exact hem
            exact hgoal
    | migrateI18n m =>
      intro s hs
      obtain ⟨⟨w, hwm, hwid⟩, ⟨e, hem, heid⟩⟩ := hri s hs
      refine ⟨⟨w, hwm, hwid⟩,
        ⟨backfillRow m e, List.mem_map_of_mem _ hem, ?_⟩⟩
      rw [(backfillRow_fields m e).1, heid]
  · intro db i s hs
    have h := (List.mem_filter.mp hs).2
    simpa using h
  · intro db i s hs
    have h := (List.mem_filter.mp hs).2
    simpa using h

/-- Witness for C3: deleting workout 1 from the §8 scenario preserves the
invariant. -/
theorem refIntegrity_preserved_witness :
    refIntegrity (applyOp (DBOp.deleteWorkout 1) statsScenarioDB) :=
  refIntegrity_preserved.1 (DBOp.deleteWorkout 1) statsScenarioDB (by decide)

/-! ## C7: positivity of weight and reps -/

/-- Counterexample to C7 as stated: the engine itself never validates
weight or reps, so the state reached from the empty store by a `createSet`
call with weight 0 and reps 0 on valid foreign keys holds a set row
violating the claimed invariant — the insert is accepted, not rejected. -/
theorem setsPositive_cx :
    nonPositiveScenarioDB.sets.length = 1 ∧ ¬ setsPositive nonPositiveScenarioDB := by
  constructor
  · decide
  · decide

/-- C7 (amended): the positivity invariant holds in every state reachable by
operations whose set-writing inputs respect the caller-side contract
(weight > 0 after the bodyweight substitution, reps > 0): each operation
preserves positivity of all set rows under that precondition. -/
theorem setsPositive_preserved (op : DBOp) (db : DB)
    (hdb : setsPositive db) (hop : opPositiveInputs op) :
    setsPositive (applyOp op db) := by
  cases op with
  | createWorkout d n => exact fun s hs => hdb s hs
  | updateWorkout i d n => exact fun s hs => hdb s hs
  | deleteWorkout i => exact fun s hs => hdb s (List.mem_filter.mp hs).1
  | createExercise nm c =>
    cases hf : findExercise db.exercises nm c with
    | some e0 =>
      show setsPositive (createExercise db nm c).1
      rw [createExercise_found db nm c e0 hf]
      exact hdb
    | none =>
      show setsPositive (createExercise db nm c).1
      rw [createExercise_notFound db nm c hf]
      exact fun s hs => hdb s hs
  | getOrCreateExercise nm c =>
    show setsPositive (getOrCreateExercise db nm c).1
    unfold getOrCreateExercise
    cases hf : findExercise db.exercises nm c with
    | some e0 => exact hdb
    | none => exact fun s hs => hdb s hs
  | updateExercise i nm c => exact fun s hs => hdb s hs
  | deleteExercise i => exact fun s hs => hdb s (List.mem_filter.mp hs).1
  | createSet wid eid wt rp lt so =>
    show setsPositive (match createSet db wid eid wt rp lt so with
      | Except.ok p => p.1 | Except.error _ => db)
    unfold createSet
    by_cases hc : (db.workouts.any (fun w => w.id = wid) &&
        db.exercises.any (fun e => e.id = eid)) = true
    · rw [if_pos hc]
      intro s hs
      rcases List.mem_append.mp hs with hold | hnew
      · exact hdb s hold
      · have hseq : s = ⟨db.nextSetId, wid, eid, wt, rp, lt, so, db.now⟩ := by
          simpa using hnew
        rw [hseq]
        exact hop
    · rw [if_neg hc]
      exact hdb
  | updateSet i wt rp lt =>
    intro s2 hs2
    replace hs2 : s2 ∈ (updateSet db i wt rp lt).sets := hs2
    rw [updateSet_sets_eq db i wt rp lt] at hs2
    obtain ⟨s, hsm, rfl⟩ := List.mem_map.mp hs2
    by_cases h : s.id = i
    · rw [if_pos h]
      exact hop
    · rw [if_neg h]
      exact hdb s hsm
  | deleteSet i => exact fun s hs => hdb s (List.mem_filter.mp hs).1
  | clearAllData => exact fun s hs => absurd hs (List.not_mem_nil s)
  | seedDefaultExercises defs =>
    obtain ⟨-, h2, -⟩ := seedLoop_spec defs db 0
    intro s hs
    replace hs : s ∈ (seedLoop defs db 0).1.sets := hs
    rw [h2] at hs
    exact hdb s hs
  | bulkImport data =>
    obtain ⟨-, bw2, -⟩ := bulkInsertWorkouts_spec data.workouts db
    obtain ⟨-, be2, -⟩ :=
      bulkInsertExercises_spec data.exercises (bulkInsertWorkouts data.workouts db).1 [] 0
    obtain ⟨-, -, -, -, bs5⟩ :=
      bulkInsertSets_spec data.sets (bulkInsertWorkouts data.workouts db).2
        (bulkInsertExercises data.exercises
          (bulkInsertWorkouts data.workouts db).1 [] 0).2.1
        (bulkInsertExercises data.exercises
          (bulkInsertWorkouts data.workouts db).1 [] 0).1
    intro s hs
    replace hs : s ∈ (bulkInsertSets data.sets (bulkInsertWorkouts data.workouts db).2
        (bulkInsertExercises data.exercises
          (bulkInsertWorkouts data.workouts db).1 [] 0).2.1
        (bulkInsertExercises data.exercises
          (bulkInsertWorkouts data.workouts db).1 [] 0).1).1.sets := hs
    rcases bs5 s hs with hold | ⟨⟨b, hbm, hbw, hbr⟩, -, -⟩
    · rw [be2, bw2] at hold
      exact hdb s hold
    · constructor
      · rw [hbw]
        exact (hop b hbm).1
      · rw [hbr]
        exact (hop b hbm).2
  | migrateI18n m => exact fun s hs => hdb s hs

/-- Witness for the amended C7 at a compliant `createSet` call. -/
theorem setsPositive_preserved_witness :
    setsPositive (applyOp (DBOp.createSet 1 1 80 5 LoadType.weighted 1) statsScenarioDB) :=
  setsPositive_preserved (DBOp.createSet 1 1 80 5 LoadType.weighted 1) statsScenarioDB
    (by decide) (by decide)

/-! ## C1: bulkImport, out-of-range workout indices, atomicity -/

/-- A `bulkImport` payload whose single set entry references workout index 5
while only one workout is supplied. -/
def bulkCxData : BulkData :=
  { workouts := [⟨"2024-02-01", none⟩]
    exercises := [⟨"Row", "Pulls"⟩]
    sets := [⟨5, "Row", "Pulls", 40, 10, LoadType.weighted, 1⟩] }

/-- C1: when some set entry's `workoutIndex` is out of range, the
implemented policy is the skip policy, exclusively: the call commits
(returning `ok` counts) rather than rejecting, all workouts and the deduped
exercises of the call persist, the sets table grows by exactly the resolvable
entries, every out-of-range entry resolves to a falsy lookup and is skipped
(so strictly fewer sets than entries are created), and — for the
transactional half — whenever the underlying transaction aborts, the state
reverts to the state at `BEGIN`, leaving no partial rows. -/
theorem bulkImport_skip_policy (db : DB) (data : BulkData)
    (hoff : ∃ s ∈ data.sets, data.workouts.length ≤ s.workoutIndex) :
    bulkImport db data
        = ((bulkImportRun db data).1, Except.ok (bulkImportRun db data).2) ∧
    (bulkImportRun db data).2.workoutsCreated = data.workouts.length ∧
    (bulkImportRun db data).1.workouts.length
        = db.workouts.length + data.workouts.length ∧
    (bulkImportRun db data).1.exercises.length
        = db.exercises.length + (bulkImportRun db data).2.exercisesCreated ∧
    (bulkImportRun db data).1.sets.length
        = db.sets.length + (bulkImportRun db data).2.setsCreated ∧
    (bulkImportRun db data).2.setsCreated
        = (data.sets.filter
            (bulkSetHit (bulkMaps db data).1 (bulkMaps db data).2)).length ∧
    (∀ s ∈ data.sets, data.workouts.length ≤ s.workoutIndex →
        bulkSetHit (bulkMaps db data).1 (bulkMaps db data).2 s = false) ∧
    (bulkImportRun db data).2.setsCreated < data.sets.length ∧
    (∀ (α : Type) (db0 : DB) (body : DB → Except String (DB × α)) (err : String),
        (withTransactionRun db0 body).2 = Except.error err →
        (withTransactionRun db0 body).1 = db0) := by
  obtain ⟨bw1, bw2, bw3, bw4, bw5, bw6⟩ := bulkInsertWorkouts_spec data.workouts db
  obtain ⟨be1, be2, be3, be4, be5, be6⟩ :=
    bulkInsertExercises_spec data.exercises (bulkInsertWorkouts data.workouts db).1 [] 0
  obtain ⟨bs1, bs2, bs3, bs4, bs5⟩ :=
    bulkInsertSets_spec data.sets (bulkInsertWorkouts data.workouts db).2
      (bulkInsertExercises data.exercises
        (bulkInsertWorkouts data.workouts db).1 [] 0).2.1
      (bulkInsertExercises data.exercises
        (bulkInsertWorkouts data.workouts db).1 [] 0).1
  have hmaps1 : (bulkMaps db data).1 = (bulkInsertWorkouts data.workouts db).2 := rfl
  have hmaps2 : (bulkMaps db data).2
      = (bulkInsertExercises data.exercises
          (bulkInsertWorkouts data.workouts db).1 [] 0).2.1 := rfl
  have hskip : ∀ s ∈ data.sets, data.workouts.length ≤ s.workoutIndex →
      bulkSetHit (bulkMaps db data).1 (bulkMaps db data).2 s = false := by
    intro s hsm hge
    rw [hmaps1, hmaps2]
    unfold bulkSetHit
    have hnone : ((bulkInsertWorkouts data.workouts db).2)[s.workoutIndex]? = none :=
      List.getElem?_eq_none (by rw [bw3]; exact hge)
    rw [hnone]
    simp
  refine ⟨rfl, bw3, ?_, ?_, ?_, ?_, hskip, ?_, ?_⟩
  · show (bulkInsertSets data.sets (bulkInsertWorkouts data.workouts db).2
        (bulkInsertExercises data.exercises
          (bulkInsertWorkouts data.workouts db).1 [] 0).2.1
        (bulkInsertExercises data.exercises
          (bulkInsertWorkouts data.workouts db).1 [] 0).1).1.workouts.length
      = db.workouts.length + data.workouts.length
    rw [bs1, be1, bw4]
  · show (bulkInsertSets data.sets (bulkInsertWorkouts data.workouts db).2
        (bulkInsertExercises data.exercises
          (bulkInsertWorkouts data.workouts db).1 [] 0).2.1
        (bulkInsertExercises data.exercises
          (bulkInsertWorkouts data.workouts db).1 [] 0).1).1.exercises.length
      = db.exercises.length
        + (bulkInsertExercises data.exercises
            (bulkInsertWorkouts data.workouts db).1 [] 0).2.2
    rw [bs2]
    rw [bw1] at be6
    omega
  · show (bulkInsertSets data.sets (bulkInsertWorkouts data.workouts db).2
        (bulkInsertExercises data.exercises
          (bulkInsertWorkouts data.workouts db).1 [] 0).2.1
        (bulkInsertExercises data.exercises
          (bulkInsertWorkouts data.workouts db).1 [] 0).1).1.sets.length
      = db.sets.length
        + (bulkInsertSets data.sets (bulkInsertWorkouts data.workouts db).2
            (bulkInsertExercises data.exercises
              (bulkInsertWorkouts data.workouts db).1 [] 0).2.1
            (bulkInsertExercises data.exercises
              (bulkInsertWorkouts data.workouts db).1 [] 0).1).2
    rw [bs4, be2, bw2]
  · show (bulkInsertSets data.sets (bulkInsertWorkouts data.workouts db).2
        (bulkInsertExercises data.exercises
          (bulkInsertWorkouts data.workouts db).1 [] 0).2.1
        (bulkInsertExercises data.exercises
          (bulkInsertWorkouts data.workouts db).1 [] 0).1).2
      = (data.sets.filter
          (bulkSetHit (bulkMaps db data).1 (bulkMaps db data).2)).length
    rw [hmaps1, hmaps2]
    exact bs3
  · obtain ⟨s0, hs0m, hs0ge⟩ := hoff
    have hfalse := hskip s0 hs0m hs0ge
    have hlt : (data.sets.filter
        (bulkSetHit (bulkMaps db data).1 (bulkMaps db data).2)).length
          < data.sets.length :=
      List.length_filter_lt_length_iff_exists.mpr ⟨s0, hs0m, by simp [hfalse]⟩
    show (bulkInsertSets data.sets (bulkInsertWorkouts data.workouts db).2
        (bulkInsertExercises data.exercises
          (bulkInsertWorkouts data.workouts db).1 [] 0).2.1
        (bulkInsertExercises data.exercises
          (bulkInsertWorkouts data.workouts db).1 [] 0).1).2 < data.sets.length
    rw [hmaps1, hmaps2] at hlt
    rw [bs3]
    exact hlt
  · intro α db0 body err herr
    unfold withTransactionRun at herr ⊢
    cases hb : body db0 with
    | ok p =>
      rw [hb] at herr
      have herr2 : Except.ok p.2 = Except.error err := herr
      exact Except.noConfusion herr2
    | error e => rfl

/-- Witness for C1: importing a payload with one out-of-range set entry
commits the workout and skips the set. -/
theorem bulkImport_skip_policy_witness :
    (bulkImportRun emptyDB bulkCxData).2.setsCreated < bulkCxData.sets.length ∧
    (bulkImportRun emptyDB bulkCxData).1.workouts.length
      = emptyDB.workouts.length + bulkCxData.workouts.length := by
  have h := bulkImport_skip_policy emptyDB bulkCxData (by decide)
  exact ⟨h.2.2.2.2.2.2.2.1, h.2.2.1⟩

/-! ## C5: stability of the default-vs-custom flag -/

theorem mem_getAllSetsWithDetails_joinRows (db : DB) (lim : Option Int)
    (r : SetWithDetails) (hr : r ∈ getAllSetsWithDetails db lim) :
    r ∈ joinRows db := by
  have hsort : ∀ x, x ∈ sortByKey detailLE (joinRows db) → x ∈ joinRows db :=
    fun x hx => (mem_sortByKey detailLE (joinRows db) x).mp hx
  unfold getAllSetsWithDetails at hr
  cases lim with
  | none => exact hsort r hr
  | some n =>
    dsimp only at hr
    split_ifs at hr with h1 h2
    · exact hsort r hr
    · exact hsort r (List.mem_of_mem_take hr)
    · exact hsort r hr

theorem joinRows_exercise (db : DB) (r : SetWithDetails) (hr : r ∈ joinRows db) :
    ∃ e ∈ db.exercises, e.id = r.exercise_id ∧ r.exercise_i18n_key = e.i18n_key := by
  unfold joinRows at hr
  rw [List.mem_flatMap] at hr
  obtain ⟨s, hsm, hr2⟩ := hr
  rw [List.mem_flatMap] at hr2
  obtain ⟨e, hem, hr3⟩ := hr2
  rw [List.mem_map] at hr3
  obtain ⟨w, hwm, rfl⟩ := hr3
  have hef := List.mem_filter.mp hem
  exact ⟨e, hef.1, of_decide_eq_true hef.2, rfl⟩

/-- Where an exercise row's `i18n_key` can come from, for every write
operation: it survived from the previous state with its flag intact, or it
is a plain creation with a null key, or a seeded default carrying one of the
catalog keys, or the backfill of a previously-null row. -/
theorem exerciseKey_provenance (op : DBOp) (db : DB) :
    ∀ e2 ∈ (applyOp op db).exercises,
      (∃ e1 ∈ db.exercises, e1.id = e2.id ∧ e1.i18n_key = e2.i18n_key) ∨
      e2.i18n_key = none ∨
      (∃ defs, op = DBOp.seedDefaultExercises defs ∧
          ∃ d ∈ defs, e2.i18n_key = some d.i18n_key) ∨
      (∃ m, op = DBOp.migrateI18n m ∧
          ∃ e1 ∈ db.exercises, e1.id = e2.id ∧ e1.i18n_key = none ∧
            e2 = backfillRow m e1) := by
  intro e2 h2
  cases op with
  | createWorkout d n => exact Or.inl ⟨e2, h2, rfl, rfl⟩
  | updateWorkout i d n => exact Or.inl ⟨e2, h2, rfl, rfl⟩
  | deleteWorkout i => exact Or.inl ⟨e2, h2, rfl, rfl⟩
  | createExercise nm c =>
    cases hf : findExercise db.exercises nm c with
    | some e0 =>
      replace h2 : e2 ∈ (createExercise db nm c).1.exercises := h2
      rw [createExercise_found db nm c e0 hf] at h2
      exact Or.inl ⟨e2, h2, rfl, rfl⟩
    | none =>
      replace h2 : e2 ∈ (createExercise db nm c).1.exercises := h2
      rw [createExercise_notFound db nm c hf] at h2
      rcases List.mem_append.mp h2 with h3 | h4
      · exact Or.inl ⟨e2, h3, rfl, rfl⟩
      · have he : e2 = ⟨db.nextExerciseId, nm, c, db.now, none⟩ := by simpa using h4
        exact Or.inr (Or.inl (by rw [he]))
  | getOrCreateExercise nm c =>
    cases hf : findExercise db.exercises nm c with
    | some e0 =>
      replace h2 : e2 ∈ (getOrCreateExercise db nm c).1.exercises := h2
      simp only [getOrCreateExercise, hf] at h2
      exact Or.inl ⟨e2, h2, rfl, rfl⟩
    | none =>
      replace h2 : e2 ∈ (getOrCreateExercise db nm c).1.exercises := h2
      simp only [getOrCreateExercise, hf] at h2
      rcases List.mem_append.mp h2 with h3 | h4
      · exact Or.inl ⟨e2, h3, rfl, rfl⟩
      · have he : e2 = ⟨db.nextExerciseId, nm, c, db.now, none⟩ := by simpa using h4
        exact Or.inr (Or.inl (by rw [he]))
  | updateExercise i nm c =>
    replace h2 : e2 ∈ (updateExercise db i nm c).exercises := h2
    obtain ⟨e1, h1m, rfl⟩ := List.mem_map.mp h2
    left
    refine ⟨e1, h1m, ?_, ?_⟩
    · by_cases h : e1.id = i
      · rw [if_pos h]
      · rw [if_neg h]
    · by_cases h : e1.id = i
      · rw [if_pos h]
      · rw [if_neg h]
  | deleteExercise i =>
    exact Or.inl ⟨e2, (List.mem_filter.mp h2).1, rfl, rfl⟩
  | createSet wid eid wt rp lt so =>
    revert h2
    show e2 ∈ (match createSet db wid eid wt rp lt so with
        | Except.ok p => p.1 | Except.error _ => db).exercises → _
    unfold createSet
    by_cases hc : (db.workouts.any (fun w => w.id = wid) &&
        db.exercises.any (fun e => e.id = eid)) = true
    · rw [if_pos hc]
      intro h2
      exact Or.inl ⟨e2, h2, rfl, rfl⟩
    · rw [if_neg hc]
      intro h2
      exact Or.inl ⟨e2, h2, rfl, rfl⟩
  | updateSet i wt rp lt =>
    replace h2 : e2 ∈ (updateSet db i wt rp lt).exercises := h2
    have hx : (updateSet db i wt rp lt).exercises = db.exercises := by
      cases lt <;> rfl
    rw [hx] at h2
    exact Or.inl ⟨e2, h2, rfl, rfl⟩
  | deleteSet i => exact Or.inl ⟨e2, h2, rfl, rfl⟩
  | clearAllData => exact absurd h2 (List.not_mem_nil e2)
  | seedDefaultExercises defs =>
    obtain ⟨-, -, new, hnew, hprop⟩ := seedLoop_spec defs db 0
    replace h2 : e2 ∈ (seedLoop defs db 0).1.exercises := h2
    rw [hnew] at h2
    rcases List.mem_append.mp h2 with h3 | h4
    · exact Or.inl ⟨e2, h3, rfl, rfl⟩
    · obtain ⟨d, hdm, -, -, hdk⟩ := hprop e2 h4
      exact Or.inr (Or.inr (Or.inl ⟨defs, rfl, d, hdm, hdk⟩))
  | bulkImport data =>
    obtain ⟨bw1, -⟩ := bulkInsertWorkouts_spec data.workouts db
    obtain ⟨-, -, -, be4, -⟩ :=
      bulkInsertExercises_spec data.exercises (bulkInsertWorkouts data.workouts db).1 [] 0
    obtain ⟨-, bs2, -⟩ :=
      bulkInsertSets_spec data.sets (bulkInsertWorkouts data.workouts db).2
        (bulkInsertExercises data.exercises
          (bulkInsertWorkouts data.workouts db).1 [] 0).2.1
        (bulkInsertExercises data.exercises
          (bulkInsertWorkouts data.workouts db).1 [] 0).1
    replace h2 : e2 ∈ (bulkInsertSets data.sets (bulkInsertWorkouts data.workouts db).2
        (bulkInsertExercises data.exercises
          (bulkInsertWorkouts data.workouts db).1 [] 0).2.1
        (bulkInsertExercises data.exercises
          (bulkInsertWorkouts data.workouts db).1 [] 0).1).1.exercises := h2
    rw [bs2] at h2
    rcases be4 e2 h2 with h3 | h4
    · rw [bw1] at h3
      exact Or.inl ⟨e2, h3, rfl, rfl⟩
    · exact Or.inr (Or.inl h4)
  | migrateI18n m =>
    replace h2 : e2 ∈ (migrateExerciseI18nKey m db).exercises := h2
    obtain ⟨e1, h1m, rfl⟩ := List.mem_map.mp h2
    by_cases hk : e1.i18n_key = none
    · exact Or.inr (Or.inr (Or.inr
        ⟨m, rfl, e1, h1m, (backfillRow_fields m e1).1.symm, hk, rfl⟩))
    · have hb : backfillRow m e1 = e1 := by
        unfold backfillRow
        simp [hk]
      rw [hb]
      exact Or.inl ⟨e1, h1m, rfl, rfl⟩

/-- One joined row of the §8 scenario (its most recent workout's set). -/
def scenarioJoinedRow : SetWithDetails :=
  ⟨3, 2, 1, 62, 7, LoadType.weighted, 1, "", "Bench Press", "Presses", none, "2024-01-02"⟩

/-- Counterexample to C5 as stated: a custom exercise created via plain
`createExercise` under a name that the i18n map knows ("Bench Press") is
backfilled by the migration on the next initialization, after which every
read returns it with a non-null `i18n_key` — not the claimed everlasting
null. -/
theorem createExercise_null_key_cx :
    ∃ e ∈ getAllExercises (migrateExerciseI18nKey specNameToKeyMap customScenarioDB),
      e.name = "Bench Press" ∧ e.i18n_key = some "defaultExercises.benchPress" := by
  decide

/-- C5 (amended): seeded default exercises carry their given non-null
`i18n_key` in the stored rows; plain `createExercise` stores a null key;
every write operation either keeps a surviving row's flag intact, creates a
null-key row, seeds a catalog key, or — the one exception — backfills a
previously-null row via the migration; and the read queries surface the
stored key verbatim. -/
theorem exercise_key_stability :
    (∀ (db : DB) (defs : List DefaultExerciseDefinition),
        ∃ new, (seedDefaultExercises db defs).1.exercises = db.exercises ++ new ∧
          ∀ e ∈ new, ∃ d ∈ defs, e.name = d.name ∧ e.category = d.category ∧
            e.i18n_key = some d.i18n_key) ∧
    (∀ (db : DB) (name category : String),
        (createExercise db name category).1.exercises = db.exercises ∨
        (createExercise db name category).1.exercises
            = db.exercises ++ [⟨db.nextExerciseId, name, category, db.now, none⟩]) ∧
    (∀ (op : DBOp) (db : DB), ∀ e2 ∈ (applyOp op db).exercises,
        (∃ e1 ∈ db.exercises, e1.id = e2.id ∧ e1.i18n_key = e2.i18n_key) ∨
        e2.i18n_key = none ∨
        (∃ defs, op = DBOp.seedDefaultExercises defs ∧
            ∃ d ∈ defs, e2.i18n_key = some d.i18n_key) ∨
        (∃ m, op = DBOp.migrateI18n m ∧
            ∃ e1 ∈ db.exercises, e1.id = e2.id ∧ e1.i18n_key = none ∧
              e2 = backfillRow m e1)) ∧
    (∀ (db : DB) (e : ExerciseRow), e ∈ getAllExercises db ↔ e ∈ db.exercises) ∧
    (∀ (db : DB) (lim : Option Int), ∀ r ∈ getAllSetsWithDetails db lim,
        ∃ e ∈ db.exercises, e.id = r.exercise_id ∧ r.exercise_i18n_key = e.i18n_key) := by
  refine ⟨?_, ?_, exerciseKey_provenance, ?_, ?_⟩
  · intro db defs
    obtain ⟨-, -, new, hnew, hprop⟩ := seedLoop_spec defs db 0
    exact ⟨new, hnew, hprop⟩
  · intro db name category
    cases hf : findExercise db.exercises name category with
    | some e0 =>
      left
      rw [createExercise_found db name category e0 hf]
    | none =>
      right
      rw [createExercise_notFound db name category hf]
      rfl
  · intro db e
    exact mem_sortByKey exerciseLE db.exercises e
  · intro db lim r hr
    exact joinRows_exercise db r (mem_getAllSetsWithDetails_joinRows db lim r hr)

/-- Witness for the amended C5: the joined read of the §8 scenario carries
the stored (null) key of the custom exercise it references. -/
theorem exercise_key_stability_witness :
    ∃ e ∈ statsScenarioDB.exercises,
      e.id = scenarioJoinedRow.exercise_id ∧
      scenarioJoinedRow.exercise_i18n_key = e.i18n_key :=
  exercise_key_stability.2.2.2.2 statsScenarioDB none scenarioJoinedRow (by decide)

end LiftLog
